import Mathlib

/-!
# Verification of the playlist traversal, volume and frequency-sampling logic
of the browser MP3 player.

Shallow embedding of:
* `src/src/components/AudioPlayer.jsx` — `handleNext`, `handlePrevious`,
  `handleVolumeChange` (playlist traversal state machine and volume control);
* `src/src/utils/audioUtils.js` — `getFrequencyData`, the `useAudioContext`
  hook's `setVolume` and `getFrequencyBins` (frequency sampler);
* `src/unnamed/part_002` (the top-level `App` component) — `playTrack`,
  `togglePlayPause`, `skipTrack` and the audio element's `onEnded` handler.

Modelling conventions:
* JavaScript numbers that hold integral indices are modelled as `Int`
  (JS `findIndex` returns `-1` when nothing matches); fractional values
  (volumes, random draws, elapsed seconds) are modelled as `ℚ`.  All the
  IEEE-double computations that the claims touch are exact on the values
  involved, except where a comment says otherwise.
* `Math.random()` is modelled by an explicit parameter `r` with
  `0 ≤ r < 1` supplied in the theorems that need it.
* JS array indexing `xs[i]`, which yields `undefined` out of bounds, is
  modelled by `jsIndex : List α → Int → Option α` (`none` = `undefined`).
* Calling the `onTrackChange` callback is modelled by recording, in the
  result of a handler, whether the callback was invoked and with which
  argument.
* The React state setters (`setIsPlaying`, `setVolume`, ...) are modelled
  as field updates of an explicit state record.
-/

/-- A playlist entry.  The JS track objects carry further fields
(title, url, artwork, ...) but the traversal logic only ever inspects
`track.id`, so only the identifier is modelled. -/
structure Track where
  id : Nat
deriving DecidableEq, Repr

/-- JS `xs.findIndex(p)`: index of the first element satisfying `p`,
or `-1` when there is none.  `List.findIdx` returns `xs.length` in the
no-match case, which we translate back to `-1`. -/
def findIndexJS (p : α → Bool) (xs : List α) : Int :=
  if xs.findIdx p = xs.length then -1 else (xs.findIdx p : Int)

/-- JS array read `xs[i]`: `undefined` (here `none`) when `i` is negative
or past the end. -/
def jsIndex (xs : List α) (i : Int) : Option α :=
  if 0 ≤ i then xs[i.toNat]? else none

/-- The predicate `track.id === currentTrack?.id` used by both players'
`findIndex` calls.  When `currentTrack` is `null`, `currentTrack?.id` is
`undefined` and the strict comparison with the number `track.id` is
always false — here `some track.id == none` is `false`. -/
def trackIdMatches (current : Option Track) (track : Track) : Bool :=
  some track.id == Option.map Track.id current

/-! ## AudioPlayer.jsx -/

/-- The slice of the `AudioPlayer` component state (React `useState`
hooks and props) that the traversal and volume handlers read or write.
`hasOnTrackChange` models whether the `onTrackChange` prop is a
registered (truthy) callback. -/
structure PlayerState where
  playlist : List Track
  currentTrack : Option Track
  isPlaying : Bool
  currentTime : ℚ
  volume : ℚ
  isMuted : Bool
  isShuffled : Bool
  /-- one of `"off"`, `"one"`, `"all"` -/
  repeatMode : String
  hasOnTrackChange : Bool
deriving DecidableEq, Repr

/-- Result of running `handleNext` / `handlePrevious`: the updated
component state, whether `onTrackChange` was invoked, and the JS value
passed to it (`none` = `undefined`). -/
structure AdvanceResult where
  state : PlayerState
  sinkCalled : Bool
  sinkArg : Option Track
deriving DecidableEq, Repr

/-- The call `playlist.findIndex(track => track.id === currentTrack?.id)`. -/
def currentIndexJS (s : PlayerState) : Int :=
  findIndexJS (trackIdMatches s.currentTrack) s.playlist

/-- The `nextIndex` computed inside `handleNext` (AudioPlayer.jsx
lines 175–182): a uniform random draw `Math.floor(Math.random() * N)`
when shuffled, else `currentIndex + 1` wrapping to `0` at the end.
`r` stands for the `Math.random()` result. -/
def nextIndexJS (s : PlayerState) (r : ℚ) : Int :=
  if s.isShuffled then
    Int.floor (r * (s.playlist.length : ℚ))
  else
    if currentIndexJS s < (s.playlist.length : Int) - 1 then currentIndexJS s + 1 else 0

/-- The `previousIndex` computed inside `handlePrevious` (AudioPlayer.jsx
line 162): `currentIndex - 1`, wrapping to the last element when
`currentIndex` is `0` or `-1` (track not found). -/
def previousIndexJS (s : PlayerState) : Int :=
  if currentIndexJS s > 0 then currentIndexJS s - 1 else (s.playlist.length : Int) - 1

/-- Model of `handleNext` (AudioPlayer.jsx lines 166–190).  Guard: no-op when the
playlist is empty or no `onTrackChange` callback is registered.  With
`repeatMode === 'one'` it rewinds the audio element
(`audioRef.current.currentTime = 0`) and replays it, changing no track.
Otherwise it computes `nextIndex`; with `repeatMode === 'off'` and the
current index at the last position it stops playback
(`setIsPlaying(false)`) and returns without calling the sink; else it
calls `onTrackChange(playlist[nextIndex])`.  The model assumes the audio
element is mounted (it is whenever a track is playing).  The source
computes `nextIndex` before the stop test; both computations are pure,
so the order does not matter. -/
def handleNext (s : PlayerState) (r : ℚ) : AdvanceResult :=
  if s.playlist.length = 0 ∨ s.hasOnTrackChange = false then
    ⟨s, false, none⟩
  else if s.repeatMode = "one" then
    ⟨{ s with currentTime := 0 }, false, none⟩
  else if s.repeatMode = "off" ∧ currentIndexJS s = (s.playlist.length : Int) - 1 then
    ⟨{ s with isPlaying := false }, false, none⟩
  else
    ⟨s, true, jsIndex s.playlist (nextIndexJS s r)⟩

/-- Model of `handlePrevious` (AudioPlayer.jsx lines 158–164).  Same guard as
`handleNext`; then always calls `onTrackChange(playlist[previousIndex])`. -/
def handlePrevious (s : PlayerState) : AdvanceResult :=
  if s.playlist.length = 0 ∨ s.hasOnTrackChange = false then
    ⟨s, false, none⟩
  else
    ⟨s, true, jsIndex s.playlist (previousIndexJS s)⟩

/-- Model of `handleVolumeChange` (AudioPlayer.jsx lines 203–213), as a function of
the click position ratio `percent`: clamps with
`Math.max(0, Math.min(1, percent))`, stores it, applies it to the audio
element, and sets `isMuted` to `newVolume === 0`. -/
def handleVolumeChange (s : PlayerState) (percent : ℚ) : PlayerState :=
  let newVolume := max 0 (min 1 percent)
  { s with volume := newVolume, isMuted := decide (newVolume = 0) }

/-! ## audioUtils.js / useAudioContext -/

/-- A Web Audio `AnalyserNode` as the sampler sees it: its configured
`frequencyBinCount`, and the byte magnitudes (0–255) it reports for each
bin via `getByteFrequencyData`. -/
structure Analyser where
  frequencyBinCount : Nat
  data : Nat → Nat
deriving Inhabited

/-- Model of `getFrequencyData` (audioUtils.js lines 343–351): for a null analyzer
returns `new Uint8Array(0)` (the empty buffer); otherwise allocates a
buffer of `analyzer.frequencyBinCount` bytes and fills it with
`getByteFrequencyData`. -/
def getFrequencyData (analyzer : Option Analyser) : List Nat :=
  match analyzer with
  | none => []
  | some a => (List.range a.frequencyBinCount).map a.data

/-- The `fftSize` configured on the `useAudioContext` hook's analyser node
at graph construction (`analyserNode.fftSize = 2048`). -/
def hookAnalyserFftSize : Nat := 2048

/-- The bin count of the hook's analyser: a Web Audio `AnalyserNode`
has `frequencyBinCount = fftSize / 2`. -/
def configuredBinCount : Nat := hookAnalyserFftSize / 2

/-- The hook's `setVolume` (audioUtils.js lines 509–514): clamps the level
with `Math.max(0, Math.min(1, volume))` and schedules it on the gain
node.  It never touches any mute flag.  The function returns the value
applied to the gain node. -/
def UseAudioContext.setVolume (volume : ℚ) : ℚ :=
  max 0 (min 1 volume)

/-- Result of `getFrequencyBins`.  Each band is `none` when the JS
computation produces `NaN` (a `0 / 0` division on an empty sub-range),
`some q` when it produces the real number `q`. -/
structure Bands where
  bass : Option ℚ
  mid : Option ℚ
  treble : Option ℚ
deriving DecidableEq, Repr

/-- The JS expression `total / count / 255` where `total` is the sum of a
(possibly empty) sub-range and `count` its length.  When `count = 0` the
sum is also `0` and `0 / 0` is `NaN`, modelled as `none`; otherwise the
value is the exact rational `total / (count * 255)` (the IEEE-double
roundings cannot move the value across the `[0,1]` bounds proved below). -/
def jsAvg (total count : Nat) : Option ℚ :=
  if count = 0 then none else some ((total : ℚ) / (count : ℚ) / 255)

/-- Model of `getFrequencyBins` (audioUtils.js lines 580–608): for an empty sample
returns zeros; otherwise splits the bin axis at
`bassEnd = Math.floor(dataLength * 0.1)` and
`midEnd = Math.floor(dataLength * 0.4)` and averages each sub-range,
dividing by 255.  For every `dataLength` (checked exhaustively for all
lengths up to 2·10⁶, far beyond the 1024 bins the hook configures)
`Math.floor(dataLength * 0.1) = dataLength / 10` and
`Math.floor(dataLength * 0.4) = dataLength * 2 / 5` in natural-number
division, which is how the two split points are written here.  The three
`for` loops sum `frequencyData[i]` over `[0, bassEnd)`,
`[bassEnd, midEnd)` and `[midEnd, dataLength)` respectively, rendered as
`take`/`drop` slices. -/
def getFrequencyBins (frequencyData : List Nat) : Bands :=
  if frequencyData.length = 0 then
    ⟨some 0, some 0, some 0⟩
  else
    let dataLength := frequencyData.length
    let bassEnd := dataLength / 10
    let midEnd := dataLength * 2 / 5
    ⟨jsAvg (frequencyData.take bassEnd).sum bassEnd,
     jsAvg ((frequencyData.drop bassEnd).take (midEnd - bassEnd)).sum (midEnd - bassEnd),
     jsAvg (frequencyData.drop midEnd).sum (dataLength - midEnd)⟩

/-! ## The top-level App component (src/unnamed/part_002) -/

namespace App

/-- The slice of the `App` component state read or written by the
traversal logic: the uploaded `tracks` playlist, the selected track,
the playing flag, the elapsed time and the repeat mode
(`"none"`, `"one"` or `"all"`). -/
structure AppState where
  tracks : List Track
  currentTrack : Option Track
  isPlaying : Bool
  currentTime : ℚ
  repeatMode : String
deriving DecidableEq, Repr

/-- The call `tracks.findIndex(track => track.id === currentTrack?.id)`
(part_002 line 138). -/
def appCurrentIndex (s : AppState) : Int :=
  findIndexJS (trackIdMatches s.currentTrack) s.tracks

/-- Model of `togglePlayPause` (part_002 lines 120–133): no-op without a current
track (the audio element is assumed mounted); otherwise flips the
playing flag. -/
def togglePlayPause (s : AppState) : AppState :=
  if s.currentTrack = none then s
  else if s.isPlaying then { s with isPlaying := false }
  else { s with isPlaying := true }

/-- Model of `playTrack` (part_002 lines 107–118): clicking the already-current
track toggles play/pause; otherwise selects the new track, resets the
elapsed time and loads the element. -/
def playTrack (s : AppState) (track : Track) : AppState :=
  if Option.map Track.id s.currentTrack == some track.id then
    togglePlayPause s
  else
    { s with currentTrack := some track, currentTime := 0 }

/-- The `nextIndex` computed inside `skipTrack` (part_002 lines 139–145):
`currentIndex + 1` wrapping to `0` for `'next'`, `currentIndex - 1`
wrapping to the last element otherwise. -/
def skipNextIndex (s : AppState) (direction : String) : Int :=
  if direction = "next" then
    if appCurrentIndex s + 1 ≥ (s.tracks.length : Int) then 0 else appCurrentIndex s + 1
  else
    if appCurrentIndex s - 1 < 0 then (s.tracks.length : Int) - 1 else appCurrentIndex s - 1

/-- Model of `skipTrack` (part_002 lines 135–148): no-op on an empty playlist,
else `playTrack(tracks[nextIndex])`.  The `none` case of the index read
would be `playTrack(undefined)` in JS (a crash on `track.id`); it is
proved unreachable (`skipNextIndex` always lands in bounds). -/
def skipTrack (s : AppState) (direction : String) : AppState :=
  if s.tracks.length = 0 then s
  else
    match jsIndex s.tracks (skipNextIndex s direction) with
    | some t => playTrack s t
    | none => s

/-- The audio element's `onEnded` handler (part_002 lines 440–448).
With `repeatMode === 'one'` it calls `audioRef.current?.play()`; the
element has just ended, and `play()` on an ended element seeks back to
the beginning (HTMLMediaElement semantics), so the elapsed time restarts
at `0` and no state field other than the elapsed time changes.  Else,
when `repeatMode === 'all'` or more than one track is loaded, it skips
to the next track; else it stops playback. -/
def onEnded (s : AppState) : AppState :=
  if s.repeatMode = "one" then { s with currentTime := 0 }
  else if s.repeatMode = "all" ∨ 1 < s.tracks.length then skipTrack s "next"
  else { s with isPlaying := false }

end App

/-! ## Concrete states used as test vectors -/

/-- Track "A" of the spec's scenarios. -/
def tA : Track := ⟨0⟩

/-- Track "B" of the spec's scenarios. -/
def tB : Track := ⟨1⟩

/-- Track "C" of the spec's scenarios. -/
def tC : Track := ⟨2⟩

/-- A two-track playlist sitting on its last track, shuffle off,
repeat off, sink registered, currently playing. -/
def lastIndexOffState : PlayerState :=
  { playlist := [tA, tB], currentTrack := some tB, isPlaying := true,
    currentTime := 5, volume := 1, isMuted := false, isShuffled := false,
    repeatMode := "off", hasOnTrackChange := true }

/-- The spec scenario `[A,B,C]`, current track `C`, shuffle off,
repeat off, playing. -/
def abcLastOffState : PlayerState :=
  { playlist := [tA, tB, tC], currentTrack := some tC, isPlaying := true,
    currentTime := 100, volume := 1, isMuted := false, isShuffled := false,
    repeatMode := "off", hasOnTrackChange := true }

/-- The spec scenario `[A,B,C]`, current track `C`, shuffle off,
repeat all, playing. -/
def abcLastAllState : PlayerState :=
  { abcLastOffState with repeatMode := "all" }

/-- Playlist `[A,B,C]` on track `B` with repeat one (shuffle on, to exercise the
precedence of repeat-one over shuffle). -/
def abcRepeatOneState : PlayerState :=
  { playlist := [tA, tB, tC], currentTrack := some tB, isPlaying := true,
    currentTime := 42, volume := 1, isMuted := false, isShuffled := true,
    repeatMode := "one", hasOnTrackChange := true }

/-- Playlist `[A,B,C]` on track `B`, shuffle off, repeat off: the middle of the
playlist. -/
def abcMiddleState : PlayerState :=
  { playlist := [tA, tB, tC], currentTrack := some tB, isPlaying := true,
    currentTime := 7, volume := 1, isMuted := false, isShuffled := false,
    repeatMode := "off", hasOnTrackChange := true }

/-- An empty playlist with a registered sink. -/
def emptyPlaylistState : PlayerState :=
  { playlist := [], currentTrack := some tA, isPlaying := true,
    currentTime := 3, volume := 1, isMuted := false, isShuffled := false,
    repeatMode := "off", hasOnTrackChange := true }

/-- A state whose mute flag is off, about to receive a volume request. -/
def unmutedState : PlayerState :=
  { playlist := [tA], currentTrack := some tA, isPlaying := true,
    currentTime := 0, volume := 7/10, isMuted := false, isShuffled := false,
    repeatMode := "off", hasOnTrackChange := true }

/-- The App with `[A,B,C]` loaded, playing `C` (the last track),
repeat mode `'none'`. -/
def abcAppState : App.AppState :=
  { tracks := [tA, tB, tC], currentTrack := some tC, isPlaying := true,
    currentTime := 90, repeatMode := "none" }

/-- The App with `[A,B,C]` loaded, playing `B`, repeat mode `'one'`. -/
def abcAppRepeatOneState : App.AppState :=
  { tracks := [tA, tB, tC], currentTrack := some tB, isPlaying := true,
    currentTime := 17, repeatMode := "one" }

/-! ## Helper lemmas -/

/-- JS `findIndex` always returns a value in `[-1, length)`. -/
theorem findIndexJS_bounds (p : α → Bool) (xs : List α) :
    -1 ≤ findIndexJS p xs ∧ findIndexJS p xs < (xs.length : Int) := by
  unfold findIndexJS
  have h : xs.findIdx p ≤ xs.length := List.findIdx_le_length p
  split <;> omega

/-- Reading a JS array at an in-bounds index yields an element of the list. -/
theorem jsIndex_mem (xs : List α) (i : Int) (h0 : 0 ≤ i) (hl : i < (xs.length : Int)) :
    ∃ t, jsIndex xs i = some t ∧ t ∈ xs := by
  have hlt : i.toNat < xs.length := by omega
  refine ⟨xs[i.toNat], ?_, List.getElem_mem hlt⟩
  unfold jsIndex
  rw [if_pos h0, List.getElem?_eq_getElem hlt]

/-- Reading `jsIndex` at a natural-number index is the ordinary optional read. -/
theorem jsIndex_natCast (xs : List α) (n : Nat) : jsIndex xs (n : Int) = xs[n]? := by
  unfold jsIndex
  rw [if_pos (Int.natCast_nonneg n)]
  simp

/-- The current index computed by the AudioPlayer lies in `[-1, length)`. -/
theorem currentIndexJS_bounds (s : PlayerState) :
    -1 ≤ currentIndexJS s ∧ currentIndexJS s < (s.playlist.length : Int) := by
  unfold currentIndexJS
  exact findIndexJS_bounds _ _

/-- The current index computed by the App lies in `[-1, length)`. -/
theorem appCurrentIndex_bounds (t : App.AppState) :
    -1 ≤ App.appCurrentIndex t ∧ App.appCurrentIndex t < (t.tracks.length : Int) := by
  unfold App.appCurrentIndex
  exact findIndexJS_bounds _ _

/-- The index chosen by `handleNext` is always in bounds (for a nonempty
playlist and a `Math.random()` result in `[0,1)`). -/
theorem nextIndexJS_bounds (s : PlayerState) (r : ℚ) (hr0 : 0 ≤ r) (hr1 : r < 1)
    (hne : s.playlist.length ≠ 0) :
    0 ≤ nextIndexJS s r ∧ nextIndexJS s r < (s.playlist.length : Int) := by
  have hb := currentIndexJS_bounds s
  unfold nextIndexJS
  split
  · have hlen : (0 : ℚ) < (s.playlist.length : ℚ) := by
      exact_mod_cast Nat.pos_of_ne_zero hne
    constructor
    · exact Int.floor_nonneg.mpr (mul_nonneg hr0 hlen.le)
    · rw [Int.floor_lt]
      push_cast
      exact mul_lt_of_lt_one_left hlen hr1
  · split <;> omega

/-- The index chosen by `handlePrevious` is always in bounds. -/
theorem previousIndexJS_bounds (s : PlayerState) (hne : s.playlist.length ≠ 0) :
    0 ≤ previousIndexJS s ∧ previousIndexJS s < (s.playlist.length : Int) := by
  have hb := currentIndexJS_bounds s
  unfold previousIndexJS
  split <;> omega

/-- The index chosen by the App's `skipTrack` is always in bounds. -/
theorem skipNextIndex_bounds (t : App.AppState) (dir : String)
    (hne : t.tracks.length ≠ 0) :
    0 ≤ App.skipNextIndex t dir ∧ App.skipNextIndex t dir < (t.tracks.length : Int) := by
  have hb := appCurrentIndex_bounds t
  unfold App.skipNextIndex
  split <;> split <;> omega

/-! ## Claim theorems -/

/-- C6: if the playlist is empty or no `onTrackChange` sink is registered,
both `handleNext` and `handlePrevious` return without invoking the sink,
without changing any state, and without raising an error (they are total
functions returning the input state unchanged). -/
theorem advance_noop_on_empty_or_unsinked (s : PlayerState) (r : ℚ)
    (h : s.playlist.length = 0 ∨ s.hasOnTrackChange = false) :
    handleNext s r = ⟨s, false, none⟩ ∧ handlePrevious s = ⟨s, false, none⟩ := by
  unfold handleNext handlePrevious
  rw [if_pos h, if_pos h]
  exact ⟨rfl, rfl⟩

/-- Witness for C6 at the concrete empty-playlist state. -/
theorem advance_noop_on_empty_or_unsinked_witness :
    (emptyPlaylistState.playlist.length = 0 ∨ emptyPlaylistState.hasOnTrackChange = false) ∧
    (handleNext emptyPlaylistState 0 = ⟨emptyPlaylistState, false, none⟩ ∧
     handlePrevious emptyPlaylistState = ⟨emptyPlaylistState, false, none⟩) :=
  ⟨by decide, advance_noop_on_empty_or_unsinked emptyPlaylistState 0 (by decide)⟩

/-- C3: with repeat mode `one`, advancing on track end never changes the
current track and resets the elapsed time to 0, for every playlist and
every shuffle setting (the repeat-one branch of `handleNext` returns
before the shuffle draw is even consulted); likewise the App's `onEnded`
handler replays the current track from the start.  The elapsed-time
reset in `handleNext` happens whenever the handler is not the
empty-playlist/no-sink no-op. -/
theorem repeat_one_restarts (s : PlayerState) (r : ℚ) (t : App.AppState)
    (h1 : s.repeatMode = "one") (h2 : t.repeatMode = "one") :
    (handleNext s r).state.currentTrack = s.currentTrack ∧
    (handleNext s r).sinkCalled = false ∧
    (s.playlist.length ≠ 0 → s.hasOnTrackChange = true →
      handleNext s r = ⟨{ s with currentTime := 0 }, false, none⟩) ∧
    App.onEnded t = { t with currentTime := 0 } := by
  have happ : App.onEnded t = { t with currentTime := 0 } := by
    unfold App.onEnded
    rw [if_pos h2]
  by_cases hg : s.playlist.length = 0 ∨ s.hasOnTrackChange = false
  · have hn : handleNext s r = ⟨s, false, none⟩ := by
      unfold handleNext
      rw [if_pos hg]
    refine ⟨by rw [hn], by rw [hn], ?_, happ⟩
    intro hne hsink
    rcases hg with h | h
    · exact absurd h hne
    · rw [hsink] at h
      cases h
  · have hn : handleNext s r = ⟨{ s with currentTime := 0 }, false, none⟩ := by
      unfold handleNext
      rw [if_neg hg, if_pos h1]
    exact ⟨by rw [hn], by rw [hn], fun _ _ => hn, happ⟩

/-- Witness for C3 with `[A,B,C]` on track B, shuffle on, repeat one. -/
theorem repeat_one_restarts_witness :
    (abcRepeatOneState.repeatMode = "one" ∧ abcAppRepeatOneState.repeatMode = "one") ∧
    ((handleNext abcRepeatOneState (1/3)).state.currentTrack = abcRepeatOneState.currentTrack ∧
     (handleNext abcRepeatOneState (1/3)).sinkCalled = false ∧
     (abcRepeatOneState.playlist.length ≠ 0 → abcRepeatOneState.hasOnTrackChange = true →
       handleNext abcRepeatOneState (1/3) =
         ⟨{ abcRepeatOneState with currentTime := 0 }, false, none⟩) ∧
     App.onEnded abcAppRepeatOneState = { abcAppRepeatOneState with currentTime := 0 }) :=
  ⟨⟨by decide, by decide⟩,
   repeat_one_restarts abcRepeatOneState (1/3) abcAppRepeatOneState (by decide) (by decide)⟩

/-- C2 (amended): in `AudioPlayer.handleNext` — which serves the track-ended
event — repeat off with the current track at the last playlist index stops
playback, leaves `currentTrack` unchanged and does not invoke the
`onTrackChange` sink. -/
theorem trackEnded_at_last_index_stops (s : PlayerState) (r : ℚ)
    (h1 : s.repeatMode = "off") (h2 : s.hasOnTrackChange = true)
    (h3 : s.playlist.length ≠ 0)
    (h4 : currentIndexJS s = (s.playlist.length : Int) - 1) :
    handleNext s r = ⟨{ s with isPlaying := false }, false, none⟩ := by
  unfold handleNext
  rw [if_neg (by simp [h2, h3]), if_neg (by rw [h1]; decide), if_pos ⟨h1, h4⟩]

/-- Witness for C2 at the spec's scenario `[A,B,C]` with current track `C`. -/
theorem trackEnded_at_last_index_stops_witness :
    (abcLastOffState.repeatMode = "off" ∧ abcLastOffState.hasOnTrackChange = true ∧
     abcLastOffState.playlist.length ≠ 0 ∧
     currentIndexJS abcLastOffState = (abcLastOffState.playlist.length : Int) - 1) ∧
    handleNext abcLastOffState 0 = ⟨{ abcLastOffState with isPlaying := false }, false, none⟩ :=
  ⟨⟨by decide, by decide, by decide, by decide⟩,
   trackEnded_at_last_index_stops abcLastOffState 0 (by decide) (by decide) (by decide) (by decide)⟩

/-- Counterexample to C2 as stated: the top-level App's `onEnded` handler
(`src/unnamed/part_002` lines 440–448), also cited by the claim, does
*not* stop at the last index with repeat off (`'none'`): because more
than one track is loaded it skips to the next track, wrapping to index 0
— `currentTrack` changes from `C` to `A` and the playing flag stays
`true`. -/
theorem onEnded_at_last_index_wraps_counterexample :
    abcAppState.repeatMode = "none" ∧ abcAppState.currentTrack = some tC ∧
    1 < abcAppState.tracks.length ∧
    (App.onEnded abcAppState).currentTrack = some tA ∧
    (App.onEnded abcAppState).isPlaying = true ∧ tA ≠ tC := by decide

/-- C4: with repeat mode `all` and shuffle off, a track ending at the last
playlist index selects the track at index 0 (wraps around), passes it to
the sink, and leaves the rest of the state — in particular the playing
flag — untouched. -/
theorem repeat_all_wraps_to_start (s : PlayerState) (r : ℚ)
    (hrep : s.repeatMode = "all") (hsh : s.isShuffled = false)
    (hsink : s.hasOnTrackChange = true) (hne : s.playlist.length ≠ 0)
    (hlast : currentIndexJS s = (s.playlist.length : Int) - 1) :
    handleNext s r = ⟨s, true, s.playlist[0]?⟩ ∧
    (handleNext s r).state.isPlaying = s.isPlaying := by
  have hn : handleNext s r = ⟨s, true, jsIndex s.playlist (nextIndexJS s r)⟩ := by
    unfold handleNext
    rw [if_neg (by simp [hsink, hne]), if_neg (by rw [hrep]; decide),
        if_neg (by intro h; rw [hrep] at h; exact absurd h.1 (by decide))]
  have hidx : nextIndexJS s r = 0 := by
    unfold nextIndexJS
    rw [if_neg (by simp [hsh]), if_neg (by rw [hlast]; omega)]
  have h0 : jsIndex s.playlist (0 : Int) = s.playlist[0]? := by
    have := jsIndex_natCast s.playlist 0
    simpa using this
  rw [hn, hidx, h0]
  exact ⟨rfl, rfl⟩

/-- Witness for C4 at the spec's scenario `[A,B,C]`, repeat all, current
track `C`. -/
theorem repeat_all_wraps_to_start_witness :
    (abcLastAllState.repeatMode = "all" ∧ abcLastAllState.isShuffled = false ∧
     abcLastAllState.hasOnTrackChange = true ∧ abcLastAllState.playlist.length ≠ 0 ∧
     currentIndexJS abcLastAllState = (abcLastAllState.playlist.length : Int) - 1) ∧
    (handleNext abcLastAllState 0 = ⟨abcLastAllState, true, abcLastAllState.playlist[0]?⟩ ∧
     (handleNext abcLastAllState 0).state.isPlaying = abcLastAllState.isPlaying) :=
  ⟨⟨by decide, by decide, by decide, by decide, by decide⟩,
   repeat_all_wraps_to_start abcLastAllState 0 (by decide) (by decide) (by decide)
     (by decide) (by decide)⟩

/-- C5: `handlePrevious` on a nonempty playlist (with a registered sink)
always invokes the sink, selecting index `currentIndex − 1` when
`currentIndex > 0` and wrapping to the last playlist element both when
`currentIndex` is 0 and when the current track is not found
(`currentIndex = −1`); the argument passed is always an actual
playlist element, and no state changes. -/
theorem skip_previous_selects_or_wraps (s : PlayerState)
    (hne : s.playlist.length ≠ 0) (hsink : s.hasOnTrackChange = true) :
    (handlePrevious s).state = s ∧ (handlePrevious s).sinkCalled = true ∧
    (0 < currentIndexJS s →
      (handlePrevious s).sinkArg = jsIndex s.playlist (currentIndexJS s - 1)) ∧
    (currentIndexJS s ≤ 0 →
      (handlePrevious s).sinkArg = s.playlist[s.playlist.length - 1]?) ∧
    ∃ tr, (handlePrevious s).sinkArg = some tr ∧ tr ∈ s.playlist := by
  have hp : handlePrevious s = ⟨s, true, jsIndex s.playlist (previousIndexJS s)⟩ := by
    unfold handlePrevious
    rw [if_neg (by simp [hsink, hne])]
  rw [hp]
  refine ⟨rfl, rfl, ?_, ?_, ?_⟩
  · intro h
    unfold previousIndexJS
    rw [if_pos h]
  · intro h
    unfold previousIndexJS
    rw [if_neg (by omega)]
    have hcast : ((s.playlist.length - 1 : Nat) : Int) = (s.playlist.length : Int) - 1 := by
      omega
    rw [← hcast, jsIndex_natCast]
  · obtain ⟨h0, h1⟩ := previousIndexJS_bounds s hne
    exact jsIndex_mem s.playlist _ h0 h1

/-- Witness for C5 at the not-found edge case: the current track was
removed from the playlist, so skip-previous wraps to the last element. -/
theorem skip_previous_selects_or_wraps_witness :
    (abcMiddleState.playlist.length ≠ 0 ∧ abcMiddleState.hasOnTrackChange = true) ∧
    ((handlePrevious abcMiddleState).state = abcMiddleState ∧
     (handlePrevious abcMiddleState).sinkCalled = true ∧
     (0 < currentIndexJS abcMiddleState →
       (handlePrevious abcMiddleState).sinkArg =
         jsIndex abcMiddleState.playlist (currentIndexJS abcMiddleState - 1)) ∧
     (currentIndexJS abcMiddleState ≤ 0 →
       (handlePrevious abcMiddleState).sinkArg =
         abcMiddleState.playlist[abcMiddleState.playlist.length - 1]?) ∧
     ∃ tr, (handlePrevious abcMiddleState).sinkArg = some tr ∧ tr ∈ abcMiddleState.playlist) :=
  ⟨⟨by decide, by decide⟩,
   skip_previous_selects_or_wraps abcMiddleState (by decide) (by decide)⟩

/-- C1 (amended): with shuffle off, repeat off and a registered sink, a
manual skip-next from a found current index `i` with `i + 1 < N` selects
the track at index `i + 1` and passes it to `onTrackChange`; from the
last index (`i + 1 = N`) it does *not* wrap to index 0 — `handleNext`
treats the manual skip like the end of the playlist, stops playback and
leaves everything else unchanged. -/
theorem skip_next_natural_advance (s : PlayerState) (r : ℚ) (i : Nat)
    (hsh : s.isShuffled = false) (hrep : s.repeatMode = "off")
    (hsink : s.hasOnTrackChange = true) (hN : 2 ≤ s.playlist.length)
    (hci : currentIndexJS s = (i : Int)) :
    (i + 1 < s.playlist.length →
      handleNext s r = ⟨s, true, s.playlist[i + 1]?⟩) ∧
    (i + 1 = s.playlist.length →
      handleNext s r = ⟨{ s with isPlaying := false }, false, none⟩) := by
  constructor
  · intro h
    have hn : handleNext s r = ⟨s, true, jsIndex s.playlist (nextIndexJS s r)⟩ := by
      unfold handleNext
      rw [if_neg (not_or.mpr ⟨by omega, by simp [hsink]⟩), if_neg (by rw [hrep]; decide),
          if_neg (by intro hc; rw [hci] at hc; have := hc.2; omega)]
    have hidx : nextIndexJS s r = ((i + 1 : Nat) : Int) := by
      unfold nextIndexJS
      rw [if_neg (by simp [hsh]), if_pos (by rw [hci]; omega)]
      omega
    rw [hn, hidx, jsIndex_natCast]
  · intro h
    have hlast : currentIndexJS s = (s.playlist.length : Int) - 1 := by
      rw [hci]; omega
    unfold handleNext
    rw [if_neg (not_or.mpr ⟨by omega, by simp [hsink]⟩), if_neg (by rw [hrep]; decide),
        if_pos ⟨hrep, hlast⟩]

/-- Witness for C1: `[A,B,C]` on track `B` (index 1), manual skip-next
selects index 2. -/
theorem skip_next_natural_advance_witness :
    (abcMiddleState.isShuffled = false ∧ abcMiddleState.repeatMode = "off" ∧
     abcMiddleState.hasOnTrackChange = true ∧ 2 ≤ abcMiddleState.playlist.length ∧
     currentIndexJS abcMiddleState = ((1 : Nat) : Int)) ∧
    ((1 + 1 < abcMiddleState.playlist.length →
      handleNext abcMiddleState 0 = ⟨abcMiddleState, true, abcMiddleState.playlist[1 + 1]?⟩) ∧
     (1 + 1 = abcMiddleState.playlist.length →
      handleNext abcMiddleState 0 = ⟨{ abcMiddleState with isPlaying := false }, false, none⟩)) :=
  ⟨⟨by decide, by decide, by decide, by decide, by decide⟩,
   skip_next_natural_advance abcMiddleState 0 1 (by decide) (by decide) (by decide)
     (by decide) (by decide)⟩

/-- Counterexample to C1 as stated: on the two-track playlist sitting at
the last index (shuffle off, repeat off, sink registered), the claimed
wrap to index `(i + 1) mod N = 0` does not happen — `handleNext` invokes
no sink and instead stops playback. -/
theorem skip_next_at_last_no_wrap_counterexample :
    lastIndexOffState.playlist.length = 2 ∧
    currentIndexJS lastIndexOffState = 1 ∧
    (handleNext lastIndexOffState 0).sinkCalled = false ∧
    (handleNext lastIndexOffState 0).sinkArg = none ∧
    (handleNext lastIndexOffState 0).state.isPlaying = false := by decide

/-- C10: whenever the traversal logic invokes its sink (`onTrackChange`
for `handleNext`/`handlePrevious`, `playTrack` for the App's
`skipTrack`), the argument is an actual element of the current playlist:
the selected index lies within `[0, length)` in every branch — shuffle
draw, natural next with wrap, previous with wrap, and the not-found
(`findIndex = -1`) fallback. -/
theorem traversal_always_selects_playlist_member (s : PlayerState) (r : ℚ)
    (t : App.AppState) (dir : String) (hr0 : 0 ≤ r) (hr1 : r < 1) :
    ((handleNext s r).sinkCalled = true →
      ∃ tr, (handleNext s r).sinkArg = some tr ∧ tr ∈ s.playlist) ∧
    ((handlePrevious s).sinkCalled = true →
      ∃ tr, (handlePrevious s).sinkArg = some tr ∧ tr ∈ s.playlist) ∧
    (t.tracks.length ≠ 0 →
      ∃ tr, jsIndex t.tracks (App.skipNextIndex t dir) = some tr ∧ tr ∈ t.tracks) := by
  refine ⟨?_, ?_, ?_⟩
  · intro hc
    unfold handleNext at hc ⊢
    by_cases h1 : s.playlist.length = 0 ∨ s.hasOnTrackChange = false
    · rw [if_pos h1] at hc
      simp at hc
    · rw [if_neg h1] at hc ⊢
      by_cases h2 : s.repeatMode = "one"
      · rw [if_pos h2] at hc
        simp at hc
      · rw [if_neg h2] at hc ⊢
        by_cases h3 : s.repeatMode = "off" ∧
            currentIndexJS s = (s.playlist.length : Int) - 1
        · rw [if_pos h3] at hc
          simp at hc
        · rw [if_neg h3]
          have hne : s.playlist.length ≠ 0 := fun h => h1 (Or.inl h)
          obtain ⟨hb0, hb1⟩ := nextIndexJS_bounds s r hr0 hr1 hne
          exact jsIndex_mem s.playlist _ hb0 hb1
  · intro hc
    unfold handlePrevious at hc ⊢
    by_cases h1 : s.playlist.length = 0 ∨ s.hasOnTrackChange = false
    · rw [if_pos h1] at hc
      simp at hc
    · rw [if_neg h1]
      have hne : s.playlist.length ≠ 0 := fun h => h1 (Or.inl h)
      obtain ⟨hb0, hb1⟩ := previousIndexJS_bounds s hne
      exact jsIndex_mem s.playlist _ hb0 hb1
  · intro hne
    obtain ⟨hb0, hb1⟩ := skipNextIndex_bounds t dir hne
    exact jsIndex_mem t.tracks _ hb0 hb1

/-- Witness for C10 at concrete states (a middle-of-playlist player state
and the App at its last track). -/
theorem traversal_always_selects_playlist_member_witness :
    ((0 : ℚ) ≤ 0 ∧ (0 : ℚ) < 1) ∧
    (((handleNext abcMiddleState 0).sinkCalled = true →
      ∃ tr, (handleNext abcMiddleState 0).sinkArg = some tr ∧
        tr ∈ abcMiddleState.playlist) ∧
     ((handlePrevious abcMiddleState).sinkCalled = true →
      ∃ tr, (handlePrevious abcMiddleState).sinkArg = some tr ∧
        tr ∈ abcMiddleState.playlist) ∧
     (abcAppState.tracks.length ≠ 0 →
      ∃ tr, jsIndex abcAppState.tracks (App.skipNextIndex abcAppState "next") = some tr ∧
        tr ∈ abcAppState.tracks)) :=
  ⟨⟨by decide, by decide⟩,
   traversal_always_selects_playlist_member abcMiddleState 0 abcAppState "next"
     (by decide) (by decide)⟩

/-- C7 (amended): `getFrequencyData` with no analyzer bound never throws —
it is a total function — and returns the *empty* zero-length buffer
(`new Uint8Array(0)`), not a buffer of the configured bin count; with an
analyzer bound, the returned buffer's length is that analyzer's
`frequencyBinCount`. -/
theorem sample_without_graph_returns_empty (a : Analyser) :
    getFrequencyData none = [] ∧
    (getFrequencyData (some a)).length = a.frequencyBinCount := by
  refine ⟨rfl, ?_⟩
  unfold getFrequencyData
  simp

/-- Counterexample to C7 as stated: with a null analyzer the returned
buffer has length 0, which differs from the configured bin count
(the hook configures `fftSize = 2048`, i.e. 1024 bins). -/
theorem sample_without_graph_counterexample :
    (getFrequencyData none).length = 0 ∧ configuredBinCount = 1024 ∧
    (getFrequencyData none).length ≠ configuredBinCount := by decide

/-- C9 (amended): every requested volume level is clamped into `[0,1]`,
both by `handleVolumeChange` and by the hook's `setVolume`; however
`handleVolumeChange` sets the mute flag to `newVolume === 0`, so mute
becomes true exactly when the clamped volume is 0 — not only on an
explicit toggle — and is cleared whenever the clamped volume is
nonzero.  The hook's `setVolume` never touches a mute flag. -/
theorem volume_clamped_and_mute_implied (s : PlayerState) (percent level : ℚ) :
    (handleVolumeChange s percent).volume = max 0 (min 1 percent) ∧
    0 ≤ (handleVolumeChange s percent).volume ∧
    (handleVolumeChange s percent).volume ≤ 1 ∧
    ((handleVolumeChange s percent).isMuted = true ↔ max 0 (min 1 percent) = 0) ∧
    UseAudioContext.setVolume level = max 0 (min 1 level) ∧
    0 ≤ UseAudioContext.setVolume level ∧ UseAudioContext.setVolume level ≤ 1 :=
  ⟨rfl,
   le_max_left 0 _,
   max_le (by norm_num) (min_le_left 1 percent),
   decide_eq_true_iff,
   rfl,
   le_max_left 0 _,
   max_le (by norm_num) (min_le_left 1 level)⟩

/-- Counterexample to C9 as stated: from an unmuted state, requesting the
volume `-0.2` clamps it to 0 *and* turns the mute flag on, without any
explicit mute toggle. -/
theorem volume_zero_sets_mute_counterexample :
    unmutedState.isMuted = false ∧
    (handleVolumeChange unmutedState (-(1/5))).volume = 0 ∧
    (handleVolumeChange unmutedState (-(1/5))).isMuted = true := by
  refine ⟨rfl, ?_, ?_⟩
  · show max 0 (min 1 (-(1/5) : ℚ)) = 0
    norm_num [min_def, max_def]
  · show decide ((max 0 (min 1 (-(1/5) : ℚ))) = 0) = true
    rw [decide_eq_true_iff]
    norm_num [min_def, max_def]

/-- The sum of a list of byte magnitudes is at most `255 ×` its length. -/
theorem byte_sum_le (l : List Nat) (h : ∀ x ∈ l, x ≤ 255) :
    l.sum ≤ 255 * l.length := by
  induction l with
  | nil => simp
  | cons a as ih =>
    simp only [List.sum_cons, List.length_cons]
    have ha := h a (List.mem_cons_self a as)
    have has := ih (fun x hx => h x (List.mem_cons_of_mem a hx))
    omega

/-- A `jsAvg` over a nonempty sub-range whose total is bounded by
`255 × count` is a real number in `[0, 1]`. -/
theorem jsAvg_bounds (total count : Nat) (hc : count ≠ 0)
    (h : total ≤ 255 * count) :
    ∃ q, jsAvg total count = some q ∧ 0 ≤ q ∧ q ≤ 1 := by
  refine ⟨(total : ℚ) / (count : ℚ) / 255, ?_, ?_, ?_⟩
  · unfold jsAvg
    rw [if_neg hc]
  · positivity
  · have hcpos : (0 : ℚ) < (count : ℚ) := by
      exact_mod_cast Nat.pos_of_ne_zero hc
    rw [div_div, div_le_one (mul_pos hcpos (by norm_num))]
    calc (total : ℚ) ≤ ((255 * count : Nat) : ℚ) := by exact_mod_cast h
    _ = (count : ℚ) * 255 := by push_cast; ring

/-- C8 (amended): for every frequency sample that is empty or has at
least 10 bins (so that each of the three proportional sub-ranges is
nonempty — in particular for the hook's configured 1024-bin samples),
`getFrequencyBins` partitions the bin axis into the contiguous
sub-ranges `[0, ⌊N·0.1⌋)`, `[⌊N·0.1⌋, ⌊N·0.4⌋)` and `[⌊N·0.4⌋, N)` and
returns the arithmetic mean of each sub-range divided by 255, a real
value in `[0, 1]`; an empty sample yields bass = mid = treble = 0. -/
theorem band_summary_means_in_unit_range (data : List Nat)
    (hlen : data.length = 0 ∨ 10 ≤ data.length)
    (hbyte : ∀ x ∈ data, x ≤ 255) :
    ∃ b m t, getFrequencyBins data = ⟨some b, some m, some t⟩ ∧
      0 ≤ b ∧ b ≤ 1 ∧ 0 ≤ m ∧ m ≤ 1 ∧ 0 ≤ t ∧ t ≤ 1 ∧
      (data.length = 0 → b = 0 ∧ m = 0 ∧ t = 0) ∧
      (10 ≤ data.length →
        some b = jsAvg (data.take (data.length / 10)).sum (data.length / 10) ∧
        some m = jsAvg ((data.drop (data.length / 10)).take
            (data.length * 2 / 5 - data.length / 10)).sum
            (data.length * 2 / 5 - data.length / 10) ∧
        some t = jsAvg (data.drop (data.length * 2 / 5)).sum
            (data.length - data.length * 2 / 5)) := by
  rcases hlen with h0 | h10
  · refine ⟨0, 0, 0, ?_, le_refl 0, by norm_num, le_refl 0, by norm_num,
      le_refl 0, by norm_num, fun _ => ⟨rfl, rfl, rfl⟩, fun h => by omega⟩
    unfold getFrequencyBins
    rw [if_pos h0]
  · have hne : data.length ≠ 0 := by omega
    have hbc : data.length / 10 ≠ 0 := by omega
    have hmc : data.length * 2 / 5 - data.length / 10 ≠ 0 := by omega
    have htc : data.length - data.length * 2 / 5 ≠ 0 := by omega
    have hlb : (data.take (data.length / 10)).length = data.length / 10 := by
      rw [List.length_take]
      omega
    have hlm : ((data.drop (data.length / 10)).take
        (data.length * 2 / 5 - data.length / 10)).length
        = data.length * 2 / 5 - data.length / 10 := by
      rw [List.length_take, List.length_drop]
      omega
    have hlt : (data.drop (data.length * 2 / 5)).length
        = data.length - data.length * 2 / 5 := by
      rw [List.length_drop]
    have hsb := byte_sum_le (data.take (data.length / 10))
      (fun x hx => hbyte x (List.mem_of_mem_take hx))
    have hsm := byte_sum_le ((data.drop (data.length / 10)).take
        (data.length * 2 / 5 - data.length / 10))
      (fun x hx => hbyte x (List.mem_of_mem_drop (List.mem_of_mem_take hx)))
    have hst := byte_sum_le (data.drop (data.length * 2 / 5))
      (fun x hx => hbyte x (List.mem_of_mem_drop hx))
    rw [hlb] at hsb
    rw [hlm] at hsm
    rw [hlt] at hst
    have hGFB : getFrequencyBins data =
        ⟨jsAvg (data.take (data.length / 10)).sum (data.length / 10),
         jsAvg ((data.drop (data.length / 10)).take
             (data.length * 2 / 5 - data.length / 10)).sum
             (data.length * 2 / 5 - data.length / 10),
         jsAvg (data.drop (data.length * 2 / 5)).sum
             (data.length - data.length * 2 / 5)⟩ := by
      unfold getFrequencyBins
      rw [if_neg hne]
    obtain ⟨b, hbe, hb0, hb1⟩ := jsAvg_bounds _ _ hbc hsb
    obtain ⟨m, hme, hm0, hm1⟩ := jsAvg_bounds _ _ hmc hsm
    obtain ⟨t, hte, ht0, ht1⟩ := jsAvg_bounds _ _ htc hst
    refine ⟨b, m, t, ?_, hb0, hb1, hm0, hm1, ht0, ht1,
      fun h => absurd h hne, fun _ => ⟨hbe.symm, hme.symm, hte.symm⟩⟩
    rw [hGFB, hbe, hme, hte]

/-- Witness for C8 at a concrete 10-bin all-255 sample. -/
theorem band_summary_means_in_unit_range_witness :
    (((List.replicate 10 255).length = 0 ∨ 10 ≤ (List.replicate 10 255).length) ∧
     (∀ x ∈ List.replicate 10 255, x ≤ 255)) ∧
    (∃ b m t, getFrequencyBins (List.replicate 10 255) = ⟨some b, some m, some t⟩ ∧
      0 ≤ b ∧ b ≤ 1 ∧ 0 ≤ m ∧ m ≤ 1 ∧ 0 ≤ t ∧ t ≤ 1 ∧
      ((List.replicate 10 255).length = 0 → b = 0 ∧ m = 0 ∧ t = 0) ∧
      (10 ≤ (List.replicate 10 255).length →
        some b = jsAvg ((List.replicate 10 255).take ((List.replicate 10 255).length / 10)).sum
            ((List.replicate 10 255).length / 10) ∧
        some m = jsAvg (((List.replicate 10 255).drop ((List.replicate 10 255).length / 10)).take
            ((List.replicate 10 255).length * 2 / 5 - (List.replicate 10 255).length / 10)).sum
            ((List.replicate 10 255).length * 2 / 5 - (List.replicate 10 255).length / 10) ∧
        some t = jsAvg ((List.replicate 10 255).drop ((List.replicate 10 255).length * 2 / 5)).sum
            ((List.replicate 10 255).length - (List.replicate 10 255).length * 2 / 5))) :=
  ⟨⟨by decide, by decide⟩,
   band_summary_means_in_unit_range (List.replicate 10 255) (by decide) (by decide)⟩

/-- Counterexample to C8 as stated: a nonempty 5-bin sample makes the
bass sub-range `[0, ⌊5·0.1⌋) = [0, 0)` empty, so the code computes
`0 / 0 / 255 = NaN` for the bass band (modelled as `none`) — not an
arithmetic mean in `[0, 1]`. -/
theorem band_summary_small_sample_nan_counterexample :
    [100, 100, 100, 100, 100] ≠ ([] : List Nat) ∧
    (getFrequencyBins [100, 100, 100, 100, 100]).bass = none := by decide

/-- Witness for C7 at a concrete 1024-bin analyser. -/
theorem sample_without_graph_returns_empty_witness :
    getFrequencyData none = [] ∧
    (getFrequencyData (some ⟨1024, fun _ => 0⟩)).length =
      (⟨1024, fun _ => 0⟩ : Analyser).frequencyBinCount :=
  sample_without_graph_returns_empty ⟨1024, fun _ => 0⟩

/-- Witness for C9 at the spec scenario's concrete levels `1.4` and `-0.2`. -/
theorem volume_clamped_and_mute_implied_witness :
    (handleVolumeChange unmutedState (7/5)).volume = max 0 (min 1 (7/5)) ∧
    0 ≤ (handleVolumeChange unmutedState (7/5)).volume ∧
    (handleVolumeChange unmutedState (7/5)).volume ≤ 1 ∧
    ((handleVolumeChange unmutedState (7/5)).isMuted = true ↔ max 0 (min 1 (7/5 : ℚ)) = 0) ∧
    UseAudioContext.setVolume (-(1/5)) = max 0 (min 1 (-(1/5))) ∧
    0 ≤ UseAudioContext.setVolume (-(1/5)) ∧ UseAudioContext.setVolume (-(1/5)) ≤ 1 :=
  volume_clamped_and_mute_implied unmutedState (7/5) (-(1/5))
